import Mathlib

/-!
Shallow embedding of the text-buffer program in src/main.cpp: a dynamic
character array (`DynamicArray`) with clipboard and an undo/redo history
(`CareTaker` holding `Memento` snapshots).  The raw allocation is modelled
as a `List Char` whose length is the capacity; uninitialised cells are
modelled by the fixed character `junk` (real memory holds arbitrary bytes
there, so any property claiming a specific byte in such a cell fails).
Positions and sizes are `Nat` (the source uses `size_t`; no claim here
exercises wrap-around).
-/

namespace TextEd

/-- The C string terminator, written as a separate character in the raw array. -/
def term : Char := Char.ofNat 0

/-- Deterministic stand-in for an uninitialised byte obtained from `new char[_]`.
Chosen different from `term` because real uninitialised memory carries no
guarantee of being the terminator. -/
def junk : Char := Char.ofNat 1

/-- strlen: number of characters before the first terminator. -/
def cstrLen : List Char → Nat
  | [] => 0
  | c :: cs => if c = term then 0 else cstrLen cs + 1

/-- memcpy and memmove onto an array: overwrite `src.length` cells of `arr`
starting at `pos` (memmove semantics are captured because callers pass the
segment read from the pre-write array). -/
def listWrite (arr : List Char) (pos : Nat) (src : List Char) : List Char :=
  arr.take pos ++ src ++ arr.drop (pos + src.length)

/-- The array produced by `DynamicArray::resize(newCapacity)`: a fresh
allocation of `newCapacity` cells receiving a memcpy of the first `size`
bytes of the old array; the remaining cells are uninitialised. -/
def resizedData (data : List Char) (size newCapacity : Nat) : List Char :=
  (data.take size ++ List.replicate newCapacity junk).take newCapacity

/-- The while loop of `append`: double `cap` while `cap ≤ need`.  Structural
fuel of `need + 1` iterations is always sufficient, since from a positive
capacity each iteration at least doubles it; with capacity `0` the C++ loop
would not terminate at all (unreachable: capacities start at 10). -/
def growCapFuel : Nat → Nat → Nat → Nat
  | 0, _, cap => cap
  | fuel + 1, need, cap => if cap ≤ need then growCapFuel fuel need (cap * 2) else cap

/-- Final capacity after the doubling loop of `append`. -/
def growCap (need cap : Nat) : Nat := growCapFuel (need + 1) need cap

/-- A history snapshot: `savedCapacity` bytes were allocated but only the
first `savedSize` were copied in, so only those are represented. -/
structure Memento where
  savedData : List Char
  savedSize : Nat
  savedCapacity : Nat
  deriving DecidableEq, Repr

/-- The `Memento` constructor: copy `size` bytes out of `data`. -/
def Memento.create (data : List Char) (size capacity : Nat) : Memento :=
  { savedData := data.take size, savedSize := size, savedCapacity := capacity }

/-- The two snapshot stacks; the list head is the stack top
(`std::vector` back). -/
structure CareTaker where
  undoStack : List Memento
  redoStack : List Memento
  deriving DecidableEq, Repr

/-- `CareTaker::saveState`: push a snapshot on the undo stack and clear the
redo stack. -/
def CareTaker.saveState (ct : CareTaker) (data : List Char) (size capacity : Nat) :
    CareTaker :=
  { undoStack := Memento.create data size capacity :: ct.undoStack, redoStack := [] }

/-- `CareTaker::pushToUndo`. -/
def CareTaker.pushToUndo (ct : CareTaker) (data : List Char) (size capacity : Nat) :
    CareTaker :=
  { ct with undoStack := Memento.create data size capacity :: ct.undoStack }

/-- `CareTaker::pushToRedo`. -/
def CareTaker.pushToRedo (ct : CareTaker) (data : List Char) (size capacity : Nat) :
    CareTaker :=
  { ct with redoStack := Memento.create data size capacity :: ct.redoStack }

/-- `CareTaker::undo`: pop the undo stack, returning the popped snapshot
(or `none` when empty) together with the updated stacks. -/
def CareTaker.undo (ct : CareTaker) : Option Memento × CareTaker :=
  match ct.undoStack with
  | [] => (none, ct)
  | m :: rest => (some m, { ct with undoStack := rest })

/-- `CareTaker::redo`: pop the redo stack. -/
def CareTaker.redo (ct : CareTaker) : Option Memento × CareTaker :=
  match ct.redoStack with
  | [] => (none, ct)
  | m :: rest => (some m, { ct with redoStack := rest })

/-- Messages the buffer operations print on their error paths. -/
inductive OpMsg where
  | invalidRange
  | invalidPosition
  | cannotUndo
  | cannotRedo
  deriving DecidableEq, Repr

/-- The buffer: raw array, logical size, capacity, history, clipboard. -/
structure DynamicArray where
  data : List Char
  size : Nat
  capacity : Nat
  careTaker : CareTaker
  clipboard : List Char
  deriving DecidableEq, Repr

/-- The `DynamicArray` constructor: capacity 10, `data[0] = terminator`,
remaining cells uninitialised, empty history and clipboard. -/
def DynamicArray.init : DynamicArray :=
  { data := term :: List.replicate 9 junk, size := 0, capacity := 10,
    careTaker := { undoStack := [], redoStack := [] }, clipboard := [] }

/-- The logical content `content[0..length)` of the buffer. -/
def DynamicArray.logicalContent (a : DynamicArray) : List Char := a.data.take a.size

/-- Well-formed buffer: the allocation really has `capacity` cells and the
logical size fits strictly below it (the documented `length < capacity`). -/
def DynamicArray.wf (a : DynamicArray) : Prop :=
  a.data.length = a.capacity ∧ a.size < a.capacity

instance (a : DynamicArray) : Decidable a.wf := by
  unfold DynamicArray.wf; infer_instance

/-- `DynamicArray::append`: save state, double capacity while
`size + len ≥ capacity`, strcpy the text (with its terminator) at `size`. -/
def DynamicArray.append (a : DynamicArray) (text : List Char) :
    DynamicArray × List OpMsg :=
  let len := cstrLen text
  let newCap := growCap (a.size + len) a.capacity
  let d1 := if a.capacity ≤ a.size + len then resizedData a.data a.size newCap else a.data
  let d2 := listWrite d1 a.size (text.take len ++ [term])
  ({ data := d2, size := a.size + len, capacity := newCap,
     careTaker := a.careTaker.saveState a.data a.size a.capacity,
     clipboard := a.clipboard }, [])

/-- `DynamicArray::insertAndReplace`: save state; resize to
`2 * (size + len - replaceLen)` if needed; memmove the tail from
`pos + replaceLen` (including the cell at index `size`) to `pos + len`;
memcpy the substring at `pos`.  No validation is performed (the caller must
ensure `pos + replaceLen ≤ size`). -/
def DynamicArray.insertAndReplace (a : DynamicArray) (pos : Nat) (substring : List Char)
    (replaceLen : Nat) : DynamicArray × List OpMsg :=
  let len := cstrLen substring
  let newSize := a.size + len - replaceLen
  let d1 := if a.capacity ≤ newSize then resizedData a.data a.size (newSize * 2) else a.data
  let cap1 := if a.capacity ≤ newSize then newSize * 2 else a.capacity
  let seg := (d1.drop (pos + replaceLen)).take (a.size - pos - replaceLen + 1)
  let d2 := listWrite d1 (pos + len) seg
  let d3 := listWrite d2 pos (substring.take len)
  ({ data := d3, size := newSize, capacity := cap1,
     careTaker := a.careTaker.saveState a.data a.size a.capacity,
     clipboard := a.clipboard }, [])

/-- `DynamicArray::deleteText`: save state first, then validate; on a valid
range memmove the tail left and shrink, writing the terminator. -/
def DynamicArray.deleteText (a : DynamicArray) (pos len : Nat) :
    DynamicArray × List OpMsg :=
  let ct := a.careTaker.saveState a.data a.size a.capacity
  if a.size ≤ pos ∨ a.size < pos + len then
    ({ a with careTaker := ct }, [OpMsg.invalidRange])
  else
    let seg := (a.data.drop (pos + len)).take (a.size - pos - len)
    let d1 := listWrite a.data pos seg
    let d2 := listWrite d1 (a.size - len) [term]
    ({ a with data := d2, size := a.size - len, careTaker := ct }, [])

/-- `DynamicArray::copyText`: validate, then assign the span to the
clipboard; no history interaction. -/
def DynamicArray.copyText (a : DynamicArray) (pos len : Nat) :
    DynamicArray × List OpMsg :=
  if a.size ≤ pos ∨ a.size < pos + len then (a, [OpMsg.invalidRange])
  else ({ a with clipboard := (a.data.drop pos).take len }, [])

/-- `DynamicArray::cutText`: save state first, then validate; on a valid
range delegate to `copyText` then `deleteText` (each of which runs in
full, including the second `saveState` inside `deleteText`). -/
def DynamicArray.cutText (a : DynamicArray) (pos len : Nat) :
    DynamicArray × List OpMsg :=
  let a1 : DynamicArray := { a with careTaker := a.careTaker.saveState a.data a.size a.capacity }
  if a1.size ≤ pos ∨ a1.size < pos + len then (a1, [OpMsg.invalidRange])
  else
    let r1 := a1.copyText pos len
    let r2 := r1.1.deleteText pos len
    (r2.1, r1.2 ++ r2.2)

/-- `DynamicArray::pasteText`: save state first, then validate `pos ≤ size`;
on success delegate to `insertAndReplace(pos, clipboard, 0)` (which saves
state a second time). -/
def DynamicArray.pasteText (a : DynamicArray) (pos : Nat) :
    DynamicArray × List OpMsg :=
  let a1 : DynamicArray := { a with careTaker := a.careTaker.saveState a.data a.size a.capacity }
  if a1.size < pos then (a1, [OpMsg.invalidPosition])
  else a1.insertAndReplace pos a1.clipboard 0

/-- `DynamicArray::undo`: unconditionally push the current state to the redo
stack, then pop the undo stack; if a snapshot comes back, resize to its
capacity when different, memcpy its bytes, set the size and terminator;
otherwise print the cannot-undo message. -/
def DynamicArray.undo (a : DynamicArray) : DynamicArray × List OpMsg :=
  let ct1 := a.careTaker.pushToRedo a.data a.size a.capacity
  match ct1.undo with
  | (some m, ct2) =>
    let d1 := if a.capacity ≠ m.savedCapacity then resizedData a.data a.size m.savedCapacity
              else a.data
    let cap1 := if a.capacity ≠ m.savedCapacity then m.savedCapacity else a.capacity
    let d2 := listWrite d1 0 (m.savedData.take m.savedSize)
    let d3 := listWrite d2 m.savedSize [term]
    ({ a with data := d3, size := m.savedSize, capacity := cap1, careTaker := ct2 }, [])
  | (none, ct2) => ({ a with careTaker := ct2 }, [OpMsg.cannotUndo])

/-- `DynamicArray::redo`: symmetric to `undo`. -/
def DynamicArray.redo (a : DynamicArray) : DynamicArray × List OpMsg :=
  let ct1 := a.careTaker.pushToUndo a.data a.size a.capacity
  match ct1.redo with
  | (some m, ct2) =>
    let d1 := if a.capacity ≠ m.savedCapacity then resizedData a.data a.size m.savedCapacity
              else a.data
    let cap1 := if a.capacity ≠ m.savedCapacity then m.savedCapacity else a.capacity
    let d2 := listWrite d1 0 (m.savedData.take m.savedSize)
    let d3 := listWrite d2 m.savedSize [term]
    ({ a with data := d3, size := m.savedSize, capacity := cap1, careTaker := ct2 }, [])
  | (none, ct2) => ({ a with careTaker := ct2 }, [OpMsg.cannotRedo])

/-- The mutating operations of the buffer (every operation that calls
`saveState`). -/
inductive MutOp where
  | appendOp (text : List Char)
  | insertOp (pos : Nat) (sub : List Char) (replaceLen : Nat)
  | deleteOp (pos len : Nat)
  | cutOp (pos len : Nat)
  | pasteOp (pos : Nat)
  deriving DecidableEq, Repr

/-- Apply a mutating operation to the buffer. -/
def MutOp.apply : MutOp → DynamicArray → DynamicArray × List OpMsg
  | .appendOp text, a => a.append text
  | .insertOp pos sub replaceLen, a => a.insertAndReplace pos sub replaceLen
  | .deleteOp pos len, a => a.deleteText pos len
  | .cutOp pos len, a => a.cutText pos len
  | .pasteOp pos, a => a.pasteText pos

/-- Precondition under which the C++ call is free of undefined behaviour:
`insertAndReplace` demands `pos + replaceLen ≤ size` from its caller; the
other operations validate internally. -/
def MutOp.valid : MutOp → DynamicArray → Prop
  | .appendOp _, _ => True
  | .insertOp pos _ replaceLen, a => pos + replaceLen ≤ a.size
  | .deleteOp _ _, _ => True
  | .cutOp _ _, _ => True
  | .pasteOp _, _ => True

/-- Example state: a fresh buffer after `append("abc")`. -/
def exABC : DynamicArray := (DynamicArray.init.append ['a', 'b', 'c']).1

/-- Example state: a fresh buffer after `append("a")` then `undo()`; its
redo stack is nonempty. -/
def exAfterUndo : DynamicArray := ((DynamicArray.init.append ['a']).1.undo).1

/-- Example state: a fresh buffer after `append("hello")`. -/
def exHello : DynamicArray := (DynamicArray.init.append ['h', 'e', 'l', 'l', 'o']).1

end TextEd

namespace TextEd

/-! Helper lemmas about `listWrite` and the restore path of `undo`. -/

theorem listWrite_zero (d s : List Char) : listWrite d 0 s = s ++ d.drop s.length := by
  simp [listWrite]

theorem take_listWrite_term (d1 sd : List Char) :
    (listWrite (listWrite d1 0 sd) sd.length [term]).take sd.length = sd := by
  rw [listWrite_zero, listWrite, List.take_left, List.append_assoc]
  exact List.take_left sd _

/-- Whatever else `undo` does, when the undo stack holds a snapshot `m` on
top whose stored bytes really have length `savedSize`, the result has size
`savedSize`, capacity `savedCapacity`, logical content `savedData`, prints
nothing, and the snapshot is consumed from the stack. -/
theorem undo_restore (a : DynamicArray) (m : Memento) (rest : List Memento)
    (hstack : a.careTaker.undoStack = m :: rest)
    (hlen : m.savedData.length = m.savedSize) :
    (a.undo).1.size = m.savedSize ∧ (a.undo).1.capacity = m.savedCapacity ∧
      (a.undo).1.logicalContent = m.savedData ∧
      (a.undo).1.careTaker.undoStack = rest ∧ (a.undo).2 = [] := by
  have hsd : m.savedData.take m.savedSize = m.savedData := by
    rw [← hlen]; simp
  by_cases hc : a.capacity = m.savedCapacity <;>
    simp [DynamicArray.undo, CareTaker.pushToRedo, CareTaker.undo, hstack, hc,
      DynamicArray.logicalContent, hsd, ← hlen, take_listWrite_term]

/-- Symmetric restore fact for `redo`. -/
theorem redo_restore (a : DynamicArray) (m : Memento) (rest : List Memento)
    (hstack : a.careTaker.redoStack = m :: rest)
    (hlen : m.savedData.length = m.savedSize) :
    (a.redo).1.size = m.savedSize ∧ (a.redo).1.capacity = m.savedCapacity ∧
      (a.redo).1.logicalContent = m.savedData ∧
      (a.redo).1.careTaker.redoStack = rest ∧ (a.redo).2 = [] := by
  have hsd : m.savedData.take m.savedSize = m.savedData := by
    rw [← hlen]; simp
  by_cases hc : a.capacity = m.savedCapacity <;>
    simp [DynamicArray.redo, CareTaker.pushToUndo, CareTaker.redo, hstack, hc,
      DynamicArray.logicalContent, hsd, ← hlen, take_listWrite_term]

/-- A failed `undo` (empty undo stack): prints the message, leaves the
buffer fields alone, but has already pushed the current state onto the
redo stack. -/
theorem undo_fail (a : DynamicArray) (h : a.careTaker.undoStack = []) :
    a.undo = ({ a with careTaker :=
        { undoStack := [],
          redoStack := Memento.create a.data a.size a.capacity :: a.careTaker.redoStack } },
      [OpMsg.cannotUndo]) := by
  simp [DynamicArray.undo, CareTaker.pushToRedo, CareTaker.undo, h]

/-- A failed `redo` (empty redo stack): prints the message, leaves the
buffer fields alone, but has already pushed the current state onto the
undo stack. -/
theorem redo_fail (a : DynamicArray) (h : a.careTaker.redoStack = []) :
    a.redo = ({ a with careTaker :=
        { undoStack := Memento.create a.data a.size a.capacity :: a.careTaker.undoStack,
          redoStack := [] } },
      [OpMsg.cannotRedo]) := by
  simp [DynamicArray.redo, CareTaker.pushToUndo, CareTaker.redo, h]

/-- Every mutating operation leaves the undo stack topped by a snapshot of
the pre-operation state and the redo stack empty (its last history action
is always a `saveState` of a buffer equal, in data, size and capacity, to
the pre-operation one). -/
theorem mutOp_careTaker_shape (op : MutOp) (a : DynamicArray) :
    ∃ rest, ((op.apply a).1).careTaker.undoStack
        = Memento.create a.data a.size a.capacity :: rest ∧
      ((op.apply a).1).careTaker.redoStack = [] := by
  cases op with
  | appendOp text =>
      exact ⟨a.careTaker.undoStack, rfl, rfl⟩
  | insertOp pos sub replaceLen =>
      exact ⟨a.careTaker.undoStack, rfl, rfl⟩
  | deleteOp pos len =>
      by_cases h : a.size ≤ pos ∨ a.size < pos + len <;>
        simp [MutOp.apply, DynamicArray.deleteText, CareTaker.saveState, h]
  | cutOp pos len =>
      by_cases h : a.size ≤ pos ∨ a.size < pos + len
      · simp [MutOp.apply, DynamicArray.cutText, CareTaker.saveState, h]
      · simp [MutOp.apply, DynamicArray.cutText, DynamicArray.copyText,
          DynamicArray.deleteText, CareTaker.saveState, h]
  | pasteOp pos =>
      by_cases h : a.size < pos
      · simp [MutOp.apply, DynamicArray.pasteText, CareTaker.saveState, h]
      · simp [MutOp.apply, DynamicArray.pasteText, DynamicArray.insertAndReplace,
          CareTaker.saveState, h]

end TextEd

namespace TextEd

/-- The undo stack after a successful `pasteText`: two identical snapshots
of the pre-paste state on top of the previous stack, and no message. -/
theorem pasteText_stack (a : DynamicArray) (pos : Nat) (h : ¬ a.size < pos) :
    ((a.pasteText pos).1).careTaker.undoStack
        = Memento.create a.data a.size a.capacity
          :: Memento.create a.data a.size a.capacity :: a.careTaker.undoStack ∧
      (a.pasteText pos).2 = [] := by
  simp [DynamicArray.pasteText, DynamicArray.insertAndReplace, CareTaker.saveState, h]

/-- The stored bytes of a snapshot of a state whose size fits in its
allocation really have length `savedSize`. -/
theorem create_savedData_length (a : DynamicArray) (h : a.size ≤ a.data.length) :
    (Memento.create a.data a.size a.capacity).savedData.length
      = (Memento.create a.data a.size a.capacity).savedSize := by
  simp [Memento.create, h]

/-- Claim C2: for every well-formed buffer state, calling `undo()`
immediately after any single mutating operation (append, insertAndReplace
under its caller obligation `pos + replaceLen ≤ size`, deleteText, cutText,
pasteText) restores the logical content `content[0..length)`, the length
and the capacity to their exact pre-operation values, byte for byte. -/
theorem C2_undo_after_single_mutation (a : DynamicArray) (hwf : a.wf)
    (op : MutOp) (_hv : op.valid a) :
    (((op.apply a).1).undo).1.size = a.size ∧
      (((op.apply a).1).undo).1.capacity = a.capacity ∧
      (((op.apply a).1).undo).1.logicalContent = a.logicalContent := by
  obtain ⟨hl, hs⟩ := hwf
  obtain ⟨rest, hstack, -⟩ := mutOp_careTaker_shape op a
  have hlen := create_savedData_length a (by omega)
  obtain ⟨h1, h2, h3, -, -⟩ := undo_restore _ _ _ hstack hlen
  refine ⟨?_, ?_, ?_⟩ <;>
    simp_all [Memento.create, DynamicArray.logicalContent]

/-- Witness for C2 at a concrete input: append the single character a to a
fresh buffer and undo. -/
theorem C2_witness :
    ((((MutOp.appendOp ['a']).apply DynamicArray.init).1).undo).1.size
        = DynamicArray.init.size ∧
      ((((MutOp.appendOp ['a']).apply DynamicArray.init).1).undo).1.capacity
        = DynamicArray.init.capacity ∧
      ((((MutOp.appendOp ['a']).apply DynamicArray.init).1).undo).1.logicalContent
        = DynamicArray.init.logicalContent :=
  C2_undo_after_single_mutation DynamicArray.init (by decide)
    (MutOp.appendOp ['a']) trivial

/-- Claim C4: any new mutating operation (in particular one performed after
one or more `undo()` calls) leaves the redo stack empty, so a subsequent
`redo()` reports the history-empty message and leaves the buffer data, size
and capacity unchanged. -/
theorem C4_mutation_discards_redo (a : DynamicArray) (op : MutOp) (_hv : op.valid a) :
    ((op.apply a).1).careTaker.redoStack = [] ∧
      (((op.apply a).1).redo).2 = [OpMsg.cannotRedo] ∧
      (((op.apply a).1).redo).1.data = ((op.apply a).1).data ∧
      (((op.apply a).1).redo).1.size = ((op.apply a).1).size ∧
      (((op.apply a).1).redo).1.capacity = ((op.apply a).1).capacity := by
  obtain ⟨rest, -, hredo⟩ := mutOp_careTaker_shape op a
  rw [redo_fail _ hredo]
  exact ⟨hredo, rfl, rfl, rfl, rfl⟩

/-- Witness for C4 at a concrete input: delete on the state reached by
append then undo (so the redo stack was nonempty just before). -/
theorem C4_witness :
    ((MutOp.deleteOp 0 1).apply exAfterUndo).1.careTaker.redoStack = [] ∧
      ((((MutOp.deleteOp 0 1).apply exAfterUndo).1).redo).2 = [OpMsg.cannotRedo] ∧
      ((((MutOp.deleteOp 0 1).apply exAfterUndo).1).redo).1.data
        = ((MutOp.deleteOp 0 1).apply exAfterUndo).1.data ∧
      ((((MutOp.deleteOp 0 1).apply exAfterUndo).1).redo).1.size
        = ((MutOp.deleteOp 0 1).apply exAfterUndo).1.size ∧
      ((((MutOp.deleteOp 0 1).apply exAfterUndo).1).redo).1.capacity
        = ((MutOp.deleteOp 0 1).apply exAfterUndo).1.capacity :=
  C4_mutation_discards_redo exAfterUndo (MutOp.deleteOp 0 1) trivial

/-- Claim C7: a single `pasteText` call at a valid position records an edit
itself and the delegated `insertAndReplace` records again, producing exactly
two new history entries on the undo stack. -/
theorem C7_paste_two_records (a : DynamicArray) (pos : Nat) (h : pos ≤ a.size) :
    ((a.pasteText pos).1).careTaker.undoStack
        = Memento.create a.data a.size a.capacity
          :: Memento.create a.data a.size a.capacity :: a.careTaker.undoStack ∧
      (a.pasteText pos).2 = [] :=
  pasteText_stack a pos (Nat.not_lt.mpr h)

/-- Witness for C7 at a concrete input: paste at position 0 of a fresh
buffer. -/
theorem C7_witness :
    ((DynamicArray.init.pasteText 0).1).careTaker.undoStack
        = Memento.create DynamicArray.init.data DynamicArray.init.size
            DynamicArray.init.capacity
          :: Memento.create DynamicArray.init.data DynamicArray.init.size
            DynamicArray.init.capacity
          :: DynamicArray.init.careTaker.undoStack ∧
      (DynamicArray.init.pasteText 0).2 = [] :=
  C7_paste_two_records DynamicArray.init 0 (Nat.zero_le _)

/-- Claim C8: `undo()` and `redo()` push the current state onto the opposite
stack even when the following pop finds the source stack empty, so a failed
undo (resp. redo) reports its message, leaves data, size and capacity
unchanged, and leaves one spurious snapshot of the current state on the
redo (resp. undo) stack. -/
theorem C8_spurious_push_on_failed_history (a : DynamicArray) :
    (a.careTaker.undoStack = [] →
      (a.undo).2 = [OpMsg.cannotUndo] ∧ (a.undo).1.data = a.data ∧
        (a.undo).1.size = a.size ∧ (a.undo).1.capacity = a.capacity ∧
        (a.undo).1.careTaker.undoStack = [] ∧
        (a.undo).1.careTaker.redoStack
          = Memento.create a.data a.size a.capacity :: a.careTaker.redoStack) ∧
    (a.careTaker.redoStack = [] →
      (a.redo).2 = [OpMsg.cannotRedo] ∧ (a.redo).1.data = a.data ∧
        (a.redo).1.size = a.size ∧ (a.redo).1.capacity = a.capacity ∧
        (a.redo).1.careTaker.redoStack = [] ∧
        (a.redo).1.careTaker.undoStack
          = Memento.create a.data a.size a.capacity :: a.careTaker.undoStack) := by
  constructor
  · intro h
    rw [undo_fail a h]
    exact ⟨rfl, rfl, rfl, rfl, rfl, rfl⟩
  · intro h
    rw [redo_fail a h]
    exact ⟨rfl, rfl, rfl, rfl, rfl, rfl⟩

/-- Witness for C8 at a concrete input: undo and redo on the fresh buffer,
whose two stacks are both empty. -/
theorem C8_witness :
    ((DynamicArray.init.undo).2 = [OpMsg.cannotUndo] ∧
      (DynamicArray.init.undo).1.data = DynamicArray.init.data ∧
      (DynamicArray.init.undo).1.size = DynamicArray.init.size ∧
      (DynamicArray.init.undo).1.capacity = DynamicArray.init.capacity ∧
      (DynamicArray.init.undo).1.careTaker.undoStack = [] ∧
      (DynamicArray.init.undo).1.careTaker.redoStack
        = Memento.create DynamicArray.init.data DynamicArray.init.size
            DynamicArray.init.capacity :: DynamicArray.init.careTaker.redoStack) ∧
    ((DynamicArray.init.redo).2 = [OpMsg.cannotRedo] ∧
      (DynamicArray.init.redo).1.data = DynamicArray.init.data ∧
      (DynamicArray.init.redo).1.size = DynamicArray.init.size ∧
      (DynamicArray.init.redo).1.capacity = DynamicArray.init.capacity ∧
      (DynamicArray.init.redo).1.careTaker.redoStack = [] ∧
      (DynamicArray.init.redo).1.careTaker.undoStack
        = Memento.create DynamicArray.init.data DynamicArray.init.size
            DynamicArray.init.capacity :: DynamicArray.init.careTaker.undoStack) :=
  ⟨(C8_spurious_push_on_failed_history DynamicArray.init).1 rfl,
   (C8_spurious_push_on_failed_history DynamicArray.init).2 rfl⟩

/-- Claim C9: both snapshots pushed during a successful `pasteText` are the
identical snapshot of the pre-paste state, so a single `undo()` after the
paste already restores the pre-paste logical content, length and
capacity. -/
theorem C9_single_undo_reverts_paste (a : DynamicArray) (hwf : a.wf)
    (pos : Nat) (h : pos ≤ a.size) :
    ((a.pasteText pos).1).careTaker.undoStack
        = Memento.create a.data a.size a.capacity
          :: Memento.create a.data a.size a.capacity :: a.careTaker.undoStack ∧
      ((((a.pasteText pos).1).undo).1).size = a.size ∧
      ((((a.pasteText pos).1).undo).1).capacity = a.capacity ∧
      ((((a.pasteText pos).1).undo).1).logicalContent = a.logicalContent := by
  obtain ⟨hl, hs⟩ := hwf
  obtain ⟨hstack, -⟩ := pasteText_stack a pos (Nat.not_lt.mpr h)
  have hlen := create_savedData_length a (by omega)
  obtain ⟨h1, h2, h3, -, -⟩ := undo_restore _ _ _ hstack hlen
  refine ⟨hstack, ?_, ?_, ?_⟩ <;>
    simp_all [Memento.create, DynamicArray.logicalContent]

/-- Witness for C9 at a concrete input: paste at position 0 of a fresh
buffer, then undo once. -/
theorem C9_witness :
    ((DynamicArray.init.pasteText 0).1).careTaker.undoStack
        = Memento.create DynamicArray.init.data DynamicArray.init.size
            DynamicArray.init.capacity
          :: Memento.create DynamicArray.init.data DynamicArray.init.size
            DynamicArray.init.capacity
          :: DynamicArray.init.careTaker.undoStack ∧
      ((((DynamicArray.init.pasteText 0).1).undo).1).size = DynamicArray.init.size ∧
      ((((DynamicArray.init.pasteText 0).1).undo).1).capacity
        = DynamicArray.init.capacity ∧
      ((((DynamicArray.init.pasteText 0).1).undo).1).logicalContent
        = DynamicArray.init.logicalContent :=
  C9_single_undo_reverts_paste DynamicArray.init (by decide) 0 (Nat.zero_le _)

end TextEd

namespace TextEd

/-! Helpers for the frame and invariant claims. -/

theorem growCap_of_lt (need cap : Nat) (h : need < cap) : growCap need cap = cap := by
  simp [growCap, growCapFuel, Nat.not_le.mpr h]

theorem take_prefix_append (l t : List Char) (n : Nat) (h : n ≤ l.length) :
    ((l.take n) ++ t).take n = l.take n :=
  List.take_left' (by simp [h])

theorem writeTerm_id (l : List Char) (n : Nat) (h : l.get? n = some term) :
    l.take n ++ [term] ++ l.drop (n + 1) = l := by
  obtain ⟨hn, hget⟩ := List.get?_eq_some.mp h
  have hdrop : l.drop n = l.get ⟨n, hn⟩ :: l.drop (n + 1) := List.drop_eq_getElem_cons hn
  rw [hget] at hdrop
  calc l.take n ++ [term] ++ l.drop (n + 1)
      = l.take n ++ ([term] ++ l.drop (n + 1)) := by rw [List.append_assoc]
    _ = l.take n ++ (term :: l.drop (n + 1)) := rfl
    _ = l.take n ++ l.drop n := by rw [hdrop]
    _ = l := List.take_append_drop n l

/-- Claim C1 as amended: an operation that detects an error condition
(deleteText, cutText, copyText with an invalid range; pasteText with
`pos > length`) leaves the buffer data, size, capacity and clipboard
exactly as before the call, and `copyText` also leaves both history stacks
untouched; but deleteText, cutText and pasteText have already called
`saveState` before the validation, so they push one snapshot of the
(unchanged) current state onto the undo stack and clear the redo stack. -/
theorem C1_amended_error_paths (a : DynamicArray) (pos len : Nat) :
    ((a.size ≤ pos ∨ a.size < pos + len) →
      ((a.deleteText pos len).2 = [OpMsg.invalidRange] ∧
        (a.deleteText pos len).1.data = a.data ∧
        (a.deleteText pos len).1.size = a.size ∧
        (a.deleteText pos len).1.capacity = a.capacity ∧
        (a.deleteText pos len).1.clipboard = a.clipboard ∧
        (a.deleteText pos len).1.careTaker
          = a.careTaker.saveState a.data a.size a.capacity) ∧
      ((a.cutText pos len).2 = [OpMsg.invalidRange] ∧
        (a.cutText pos len).1.data = a.data ∧
        (a.cutText pos len).1.size = a.size ∧
        (a.cutText pos len).1.capacity = a.capacity ∧
        (a.cutText pos len).1.clipboard = a.clipboard ∧
        (a.cutText pos len).1.careTaker
          = a.careTaker.saveState a.data a.size a.capacity)) ∧
    ((a.size ≤ pos ∨ a.size < pos + len) →
      a.copyText pos len = (a, [OpMsg.invalidRange])) ∧
    (a.size < pos →
      (a.pasteText pos).2 = [OpMsg.invalidPosition] ∧
        (a.pasteText pos).1.data = a.data ∧
        (a.pasteText pos).1.size = a.size ∧
        (a.pasteText pos).1.capacity = a.capacity ∧
        (a.pasteText pos).1.clipboard = a.clipboard ∧
        (a.pasteText pos).1.careTaker
          = a.careTaker.saveState a.data a.size a.capacity) := by
  refine ⟨fun h => ?_, fun h => ?_, fun h => ?_⟩
  · simp [DynamicArray.deleteText, DynamicArray.cutText, h]
  · simp [DynamicArray.copyText, h]
  · simp [DynamicArray.pasteText, h]

/-- Counterexample to claim C1 as stated: on the state reached by
`append("a")` then `undo()` (whose redo stack holds one snapshot),
`deleteText(0, 1)` detects an invalid range and reports it, yet the history
stacks change: the redo stack is cleared and the undo stack gains an
entry. -/
theorem C1_counterexample :
    (exAfterUndo.deleteText 0 1).2 = [OpMsg.invalidRange] ∧
      exAfterUndo.careTaker.redoStack.length = 1 ∧
      (exAfterUndo.deleteText 0 1).1.careTaker.redoStack = [] ∧
      exAfterUndo.careTaker.undoStack.length = 0 ∧
      (exAfterUndo.deleteText 0 1).1.careTaker.undoStack.length = 1 := by
  decide

/-- Witness for the amended C1 at a concrete input: on the same post-undo
state (size 0), `deleteText(1, 1)`, `cutText` via the first conjunct,
`copyText(1, 1)` and `pasteText(1)` all detect their error conditions. -/
theorem C1_witness :
    (((exAfterUndo.deleteText 1 1).2 = [OpMsg.invalidRange] ∧
        (exAfterUndo.deleteText 1 1).1.data = exAfterUndo.data ∧
        (exAfterUndo.deleteText 1 1).1.size = exAfterUndo.size ∧
        (exAfterUndo.deleteText 1 1).1.capacity = exAfterUndo.capacity ∧
        (exAfterUndo.deleteText 1 1).1.clipboard = exAfterUndo.clipboard ∧
        (exAfterUndo.deleteText 1 1).1.careTaker
          = exAfterUndo.careTaker.saveState exAfterUndo.data exAfterUndo.size
              exAfterUndo.capacity) ∧
      ((exAfterUndo.cutText 1 1).2 = [OpMsg.invalidRange] ∧
        (exAfterUndo.cutText 1 1).1.data = exAfterUndo.data ∧
        (exAfterUndo.cutText 1 1).1.size = exAfterUndo.size ∧
        (exAfterUndo.cutText 1 1).1.capacity = exAfterUndo.capacity ∧
        (exAfterUndo.cutText 1 1).1.clipboard = exAfterUndo.clipboard ∧
        (exAfterUndo.cutText 1 1).1.careTaker
          = exAfterUndo.careTaker.saveState exAfterUndo.data exAfterUndo.size
              exAfterUndo.capacity)) ∧
    (exAfterUndo.copyText 1 1 = (exAfterUndo, [OpMsg.invalidRange])) ∧
    ((exAfterUndo.pasteText 1).2 = [OpMsg.invalidPosition] ∧
      (exAfterUndo.pasteText 1).1.data = exAfterUndo.data ∧
      (exAfterUndo.pasteText 1).1.size = exAfterUndo.size ∧
      (exAfterUndo.pasteText 1).1.capacity = exAfterUndo.capacity ∧
      (exAfterUndo.pasteText 1).1.clipboard = exAfterUndo.clipboard ∧
      (exAfterUndo.pasteText 1).1.careTaker
        = exAfterUndo.careTaker.saveState exAfterUndo.data exAfterUndo.size
            exAfterUndo.capacity) :=
  ⟨(C1_amended_error_paths exAfterUndo 1 1).1 (by decide),
   (C1_amended_error_paths exAfterUndo 1 1).2.1 (by decide),
   (C1_amended_error_paths exAfterUndo 1 1).2.2 (by decide)⟩

/-- Claim C3 as amended: on a valid range, one call to `cutText(pos, len)`
pushes exactly two snapshots onto the undo stack, not one: `cutText`
records once itself and the delegated `deleteText` records again; both
snapshots capture the same pre-cut state (`copyText` itself records
nothing). -/
theorem C3_amended_cut_double_record (a : DynamicArray) (pos len : Nat)
    (h1 : pos < a.size) (h2 : pos + len ≤ a.size) :
    ((a.cutText pos len).1).careTaker.undoStack
        = Memento.create a.data a.size a.capacity
          :: Memento.create a.data a.size a.capacity :: a.careTaker.undoStack ∧
      (a.cutText pos len).2 = [] := by
  have h : ¬ (a.size ≤ pos ∨ a.size < pos + len) := by omega
  simp [DynamicArray.cutText, DynamicArray.copyText, DynamicArray.deleteText,
    CareTaker.saveState, h]

/-- Counterexample to claim C3 as stated: a valid `cutText(0, 1)` on the
buffer "abc" grows the undo stack from one entry to three, so the cut is
two history entries, not one. -/
theorem C3_counterexample :
    (exABC.cutText 0 1).2 = [] ∧
      exABC.careTaker.undoStack.length = 1 ∧
      (exABC.cutText 0 1).1.careTaker.undoStack.length = 3 ∧
      ¬ ((exABC.cutText 0 1).1.careTaker.undoStack.length
          = exABC.careTaker.undoStack.length + 1) := by
  decide

/-- Witness for the amended C3 at a concrete input: `cutText(0, 1)` on the
buffer "abc". -/
theorem C3_witness :
    ((exABC.cutText 0 1).1).careTaker.undoStack
        = Memento.create exABC.data exABC.size exABC.capacity
          :: Memento.create exABC.data exABC.size exABC.capacity
          :: exABC.careTaker.undoStack ∧
      (exABC.cutText 0 1).2 = [] :=
  C3_amended_cut_double_record exABC 0 1 (by decide) (by decide)

/-- Claim C6 as amended: on a valid range, `cutText(pos, len)` produces the
same buffer data, size, capacity and clipboard as `copyText(pos, len)`
followed by `deleteText(pos, len)`, and the same buffer data, size and
capacity as `deleteText(pos, len)` alone (the clipboard is a side channel
not reflected in the content); the two command sequences are not fully
equivalent, however, because `cutText` pushes two snapshots onto the undo
stack while copy-then-delete pushes only one. -/
theorem C6_amended_cut_content_equiv (a : DynamicArray) (pos len : Nat)
    (h1 : pos < a.size) (h2 : pos + len ≤ a.size) :
    ((a.cutText pos len).1).data = ((((a.copyText pos len).1).deleteText pos len).1).data ∧
      ((a.cutText pos len).1).size
        = ((((a.copyText pos len).1).deleteText pos len).1).size ∧
      ((a.cutText pos len).1).capacity
        = ((((a.copyText pos len).1).deleteText pos len).1).capacity ∧
      ((a.cutText pos len).1).clipboard
        = ((((a.copyText pos len).1).deleteText pos len).1).clipboard ∧
      ((a.cutText pos len).1).data = ((a.deleteText pos len).1).data ∧
      ((a.cutText pos len).1).size = ((a.deleteText pos len).1).size ∧
      ((a.cutText pos len).1).capacity = ((a.deleteText pos len).1).capacity ∧
      ((a.cutText pos len).1).careTaker.undoStack.length
        = a.careTaker.undoStack.length + 2 ∧
      ((((a.copyText pos len).1).deleteText pos len).1).careTaker.undoStack.length
        = a.careTaker.undoStack.length + 1 := by
  have h : ¬ (a.size ≤ pos ∨ a.size < pos + len) := by omega
  simp [DynamicArray.cutText, DynamicArray.copyText, DynamicArray.deleteText,
    CareTaker.saveState, h]

/-- Counterexample to claim C6 as stated: on the buffer "abc" with the valid
range (0, 1), the state after `cutText` differs from the state after
`copyText` followed by `deleteText` (their undo stacks have different
heights), so the two are not equivalent. -/
theorem C6_counterexample :
    (exABC.cutText 0 1).2 = [] ∧
      ¬ ((exABC.cutText 0 1).1 = (((exABC.copyText 0 1).1).deleteText 0 1).1) ∧
      (exABC.cutText 0 1).1.logicalContent
        = (((exABC.copyText 0 1).1).deleteText 0 1).1.logicalContent := by
  decide

/-- Witness for the amended C6 at a concrete input: range (0, 1) on the
buffer "abc". -/
theorem C6_witness :
    ((exABC.cutText 0 1).1).data = ((((exABC.copyText 0 1).1).deleteText 0 1).1).data ∧
      ((exABC.cutText 0 1).1).size
        = ((((exABC.copyText 0 1).1).deleteText 0 1).1).size ∧
      ((exABC.cutText 0 1).1).capacity
        = ((((exABC.copyText 0 1).1).deleteText 0 1).1).capacity ∧
      ((exABC.cutText 0 1).1).clipboard
        = ((((exABC.copyText 0 1).1).deleteText 0 1).1).clipboard ∧
      ((exABC.cutText 0 1).1).data = ((exABC.deleteText 0 1).1).data ∧
      ((exABC.cutText 0 1).1).size = ((exABC.deleteText 0 1).1).size ∧
      ((exABC.cutText 0 1).1).capacity = ((exABC.deleteText 0 1).1).capacity ∧
      ((exABC.cutText 0 1).1).careTaker.undoStack.length
        = exABC.careTaker.undoStack.length + 2 ∧
      ((((exABC.copyText 0 1).1).deleteText 0 1).1).careTaker.undoStack.length
        = exABC.careTaker.undoStack.length + 1 :=
  C6_amended_cut_content_equiv exABC 0 1 (by decide) (by decide)

/-- Claim C5 is violated by the code: starting from the empty buffer, the
valid operations `append("hello")` then `insertAndReplace(0, "abcdef", 0)`
trigger a resize, and `resize` copies only `size` bytes, dropping the
terminator; the subsequent memmove then copies an uninitialised cell to
index `length`, so after the call `content[length]` is the uninitialised
byte, not the terminator. -/
theorem C5_insert_resize_drops_terminator :
    (exHello.insertAndReplace 0 ['a', 'b', 'c', 'd', 'e', 'f'] 0).1.size = 11 ∧
      (exHello.insertAndReplace 0 ['a', 'b', 'c', 'd', 'e', 'f'] 0).1.capacity = 22 ∧
      ((exHello.insertAndReplace 0 ['a', 'b', 'c', 'd', 'e', 'f'] 0).1.data.get? 11
        = some junk) ∧
      junk ≠ term := by
  decide

/-- Claim C10: appending the empty string to a well-formed buffer leaves
size, capacity, clipboard and logical content unchanged (and, whenever the
terminator invariant holds at `content[length]`, the raw array is unchanged
byte for byte), yet still pushes one snapshot of the current state onto the
undo stack and clears the entire redo stack. -/
theorem C10_append_empty_frame (a : DynamicArray) (hwf : a.wf) :
    (a.append []).1.size = a.size ∧
      (a.append []).1.capacity = a.capacity ∧
      (a.append []).1.clipboard = a.clipboard ∧
      (a.append []).1.logicalContent = a.logicalContent ∧
      (a.data.get? a.size = some term → (a.append []).1.data = a.data) ∧
      (a.append []).1.careTaker.undoStack
        = Memento.create a.data a.size a.capacity :: a.careTaker.undoStack ∧
      (a.append []).1.careTaker.redoStack = [] ∧
      (a.append []).2 = [] := by
  obtain ⟨hl, hs⟩ := hwf
  have hno : ¬ a.capacity ≤ a.size := by omega
  have hgrow : growCap a.size a.capacity = a.capacity := growCap_of_lt _ _ hs
  have happ : (a.append []).1
      = { data := a.data.take a.size ++ [term] ++ a.data.drop (a.size + 1),
          size := a.size, capacity := a.capacity,
          careTaker := a.careTaker.saveState a.data a.size a.capacity,
          clipboard := a.clipboard } := by
    simp [DynamicArray.append, cstrLen, hno, hgrow, listWrite]
  refine ⟨by rw [happ], by rw [happ], by rw [happ], ?_, ?_, by rw [happ]; rfl,
    by rw [happ]; rfl, rfl⟩
  · rw [happ]
    show (a.data.take a.size ++ [term] ++ a.data.drop (a.size + 1)).take a.size
        = a.logicalContent
    rw [List.append_assoc]
    exact take_prefix_append _ _ _ (by omega)
  · intro h
    rw [happ]
    show a.data.take a.size ++ [term] ++ a.data.drop (a.size + 1) = a.data
    exact writeTerm_id a.data a.size h

/-- Witness for C10 at a concrete input: append the empty string to the
buffer "abc". -/
theorem C10_witness :
    (exABC.append []).1.size = exABC.size ∧
      (exABC.append []).1.capacity = exABC.capacity ∧
      (exABC.append []).1.clipboard = exABC.clipboard ∧
      (exABC.append []).1.logicalContent = exABC.logicalContent ∧
      (exABC.data.get? exABC.size = some term → (exABC.append []).1.data = exABC.data) ∧
      (exABC.append []).1.careTaker.undoStack
        = Memento.create exABC.data exABC.size exABC.capacity
          :: exABC.careTaker.undoStack ∧
      (exABC.append []).1.careTaker.redoStack = [] ∧
      (exABC.append []).2 = [] :=
  C10_append_empty_frame exABC (by decide)

end TextEd
